import Mathlib

/-!
Verification development for the LLM reasoning-reliability experiment pipeline.

The Python sources are shallowly embedded here:
 * `src/parsing.py`  — ANSWER/CONFIDENCE extraction (`parse_answer`, `parse_confidence`,
   `parse_all_outputs`); the regex scans (`re.findall` with patterns
   `ANSWER:\s*(.+)` and `CONFIDENCE:\s*(\d+)`, both IGNORECASE) are modelled by
   explicit character-list scanners with the exact greedy/backtracking semantics
   of those two patterns.
 * `src/scoring.py`  — `normalize_numeric`, `normalize_text`, `score_answer`.
   Python `float` values are modelled as exact integer fractions (`Frac`,
   numerator/denominator, denominator kept positive); decimal literals and
   `a/b` fractions are exact in this model.  IEEE specials (`inf`, `nan`) and
   numeric-literal underscores accepted by Python `float()` are outside the
   rational model and fail to parse here.
 * `src/utils.py` and `src/run_experiments.py` — resume keys, work-list
   construction and the main grid loop.  The LLM call is an oracle
   `WorkItem → Except String String`; timestamps come from a `clock` oracle.
 * `src/llm_client.py` — the retry/backoff loop of `LLMClient.generate`,
   with the per-attempt API outcome as an oracle `ℕ → Except String String`
   and the performed backoff sleeps returned as a list.

Strings are processed as `List Char`; ASCII case folding and the six standard
whitespace characters model Python `str.lower`/`str.strip` on the ASCII inputs
this pipeline handles.
-/

/-- ASCII lower-casing of one character, as Python `str.lower` acts on ASCII. -/
def lowerChar (c : Char) : Char :=
  if c.isUpper then Char.ofNat (c.toNat + 32) else c

/-- Python `\s` / `str.strip` whitespace (ASCII range). -/
def isWs (c : Char) : Bool :=
  c == ' ' || c == '\t' || c == '\n' || c == '\r' || c == Char.ofNat 11 || c == Char.ofNat 12

/-- Python `str.strip()` : drop whitespace from both ends. -/
def pyStrip (l : List Char) : List Char :=
  ((l.dropWhile isWs).reverse.dropWhile isWs).reverse

/-- Python `str.strip(chars)` : drop characters of a given set from both ends. -/
def stripChars (cs : List Char) (l : List Char) : List Char :=
  ((l.dropWhile cs.contains).reverse.dropWhile cs.contains).reverse

/-- The set stripped by `strip("\"'` ")` in `parse_answer`:
double quote, apostrophe, backtick, space. -/
def quoteSet : List Char := [Char.ofNat 34, Char.ofNat 39, Char.ofNat 96, ' ']

/-- Numeric value of a digit string (as read by Python `int`). -/
def digitsVal (l : List Char) : ℕ :=
  l.foldl (fun n c => 10 * n + (c.toNat - 48)) 0

/-- Case-insensitive match of the (lower-case) pattern `p` at the head of `s`;
returns the remainder after the pattern on success. -/
def matchPat : List Char → List Char → Option (List Char)
  | [], s => some s
  | _ :: _, [] => none
  | c :: p, d :: s => if lowerChar d = c then matchPat p s else none

/-- The literal marker of the answer regex, lower-cased. -/
def markerAns : List Char := "answer:".toList

/-- The literal marker of the confidence regex, lower-cased. -/
def markerConf : List Char := "confidence:".toList

/-- Semantics of `\s*(.+)` (greedy, with backtracking) applied to the remainder
`r` after `ANSWER:`.  Returns the captured group and the remainder after the
whole match.  If `r` has a non-whitespace character, the group runs from the
first non-whitespace character to the end of that line; otherwise backtracking
leaves `\s*` one character short, so the group is the last character of `r`
that is not a newline (if any). -/
def matchTailAns (r : List Char) : Option (List Char × List Char) :=
  let rest := r.dropWhile isWs
  match rest with
  | _ :: _ =>
    let g := rest.takeWhile (fun c => !(c == '\n'))
    some (g, rest.drop g.length)
  | [] =>
    match r.reverse.dropWhile (fun c => c == '\n') with
    | [] => none
    | c :: _ => some ([c], (r.reverse.takeWhile (fun c => c == '\n')).reverse)

/-- Fuel-indexed left-to-right non-overlapping scan of `re.findall(r"ANSWER:\s*(.+)", ., IGNORECASE)`:
at each position try the marker then `\s*(.+)`; on success record the group and
resume after the match, otherwise advance one character. -/
def findAllAnsAux : ℕ → List Char → List (List Char)
  | 0, _ => []
  | _ + 1, [] => []
  | fuel + 1, c :: rest =>
    match matchPat markerAns (c :: rest) with
    | some r =>
      match matchTailAns r with
      | some (g, rem) => g :: findAllAnsAux fuel rem
      | none => findAllAnsAux fuel rest
    | none => findAllAnsAux fuel rest

/-- All groups captured by `re.findall(r"ANSWER:\s*(.+)", raw, IGNORECASE)`. -/
def findAllAns (s : List Char) : List (List Char) := findAllAnsAux s.length s

/-- `True` iff a case-insensitive occurrence of the literal `ANSWER:` exists. -/
def hasMarkerAns : List Char → Bool
  | [] => false
  | l@(_ :: rest) => (matchPat markerAns l).isSome || hasMarkerAns rest

/-- Character class (digit, period, slash, hyphen) of the unit-stripping regex
in `parse_answer`. -/
def isNumChar (c : Char) : Bool :=
  c.isDigit || c == '.' || c == '/' || c == '-'

/-- The fixed unit vocabulary of the unit-stripping regex in `parse_answer`. -/
def unitWords : List (List Char) :=
  ["miles".toList, "mph".toList, "km".toList, "km/h".toList, "meters".toList,
   "m".toList, "cm".toList, "feet".toList, "ft".toList, "inches".toList,
   "in".toList, "liters".toList, "gallons".toList, "gal".toList, "hours".toList,
   "hrs".toList, "minutes".toList, "mins".toList, "seconds".toList,
   "secs".toList, "days".toList, "weeks".toList, "months".toList,
   "years".toList, "dollars".toList, "cents".toList, "percent".toList,
   "%".toList, "kg".toList, "lbs".toList, "pounds".toList, "ounces".toList,
   "oz".toList, "cups".toList, "degrees".toList, "packs".toList,
   "boxes".toList, "slices".toList, "cookies".toList, "stickers".toList,
   "pencils".toList, "widgets".toList, "muffins".toList, "roses".toList,
   "desks".toList, "apples".toList, "bananas".toList, "tickets".toList,
   "crayons".toList, "shirts".toList, "employees".toList, "games".toList,
   "arrangements".toList, "weighings".toList, "pourings".toList,
   "switches".toList]

/-- Does the unit alternation followed by `\.?$` match `rest2` in full? -/
def unitMatchAt (rest2 : List Char) : Bool :=
  unitWords.any fun u =>
    List.isPrefixOf u rest2 &&
      (let after := rest2.drop u.length
       after.isEmpty || after == ['.'])

/-- The unit-stripping step of `parse_answer`
(`re.match(r"^([\d.\/\-]+)\s+(miles|…)\.?$", answer, IGNORECASE)`):
if the whole string is number-chars, whitespace, then a unit word (optionally
followed by a period), keep only the numeric portion. -/
def unitReduce (answer : List Char) : List Char :=
  let numPart := answer.takeWhile isNumChar
  let rest := answer.drop numPart.length
  let wsRun := rest.takeWhile isWs
  let rest2 := rest.drop wsRun.length
  if !numPart.isEmpty && !wsRun.isEmpty && unitMatchAt rest2 then pyStrip numPart
  else answer

/-- The normalization chain `parse_answer` applies to the captured group:
strip; lower + strip + remove commas + strip quotes/space; drop a trailing
period (then strip); drop a leading dollar sign (then strip); strip units. -/
def normalizeAnswer (g : List Char) : List Char :=
  let a1 := pyStrip g
  let a2 := stripChars quoteSet ((pyStrip (a1.map lowerChar)).filter fun c => !(c == ','))
  let a3 := if a2.getLast? = some '.' then pyStrip a2.dropLast else a2
  let a4 := if a3.head? = some '$' then pyStrip a3.tail else a3
  unitReduce a4

/-- `parse_answer` from `src/parsing.py`: last captured group of the
`ANSWER:\s*(.+)` scan, normalized; `None` when no group or when the
normalized text is empty. -/
def parse_answer (raw_output : String) : Option String :=
  match (findAllAns raw_output.toList).getLast? with
  | none => none
  | some g =>
    let answer := normalizeAnswer g
    if answer.isEmpty then none else some (String.mk answer)

/-- Semantics of `\s*(\d+)` applied to the remainder after `CONFIDENCE:`:
skip whitespace greedily, then require at least one digit (backtracking into
the whitespace run cannot produce a digit, so greedy is exact). -/
def matchTailConf (r : List Char) : Option (List Char × List Char) :=
  let rest := r.dropWhile isWs
  let ds := rest.takeWhile Char.isDigit
  if ds.isEmpty then none else some (ds, rest.drop ds.length)

/-- Fuel-indexed scan of `re.findall(r"CONFIDENCE:\s*(\d+)", ., IGNORECASE)`. -/
def findAllConfAux : ℕ → List Char → List (List Char)
  | 0, _ => []
  | _ + 1, [] => []
  | fuel + 1, c :: rest =>
    match matchPat markerConf (c :: rest) with
    | some r =>
      match matchTailConf r with
      | some (g, rem) => g :: findAllConfAux fuel rem
      | none => findAllConfAux fuel rest
    | none => findAllConfAux fuel rest

/-- All groups captured by `re.findall(r"CONFIDENCE:\s*(\d+)", raw, IGNORECASE)`. -/
def findAllConf (s : List Char) : List (List Char) := findAllConfAux s.length s

/-- `True` iff some case-insensitive occurrence of `CONFIDENCE:` is followed,
after optional whitespace, by at least one digit (i.e. the regex matches). -/
def hasConfOcc : List Char → Bool
  | [] => false
  | l@(_ :: rest) =>
    (match matchPat markerConf l with
     | some r => !((r.dropWhile isWs).takeWhile Char.isDigit).isEmpty
     | none => false) || hasConfOcc rest

/-- `parse_confidence` from `src/parsing.py`: digits of the last
`CONFIDENCE:\s*(\d+)` match, read as an integer and clamped by
`max(0, min(100, value))`; `None` when the regex never matches. -/
def parse_confidence (raw_output : String) : Option ℕ :=
  match (findAllConf raw_output.toList).getLast? with
  | none => none
  | some ds => some (max 0 (min 100 (digitsVal ds)))


/-- An exact rational value, kept unnormalized (numerator over a positive
denominator).  Every Python `float` arising in `scoring.py` from parsing a
decimal literal or dividing two of them is represented exactly here. -/
structure Frac where
  num : ℤ
  den : ℤ
deriving DecidableEq

/-- The rational value denoted by a `Frac`. -/
def Frac.toRat (f : Frac) : ℚ := (f.num : ℚ) / (f.den : ℚ)

/-- Python float division `a / b` (caller excludes the `b == 0` case, which
raises `ZeroDivisionError`); the resulting denominator stays positive. -/
def Frac.div (a b : Frac) : Frac :=
  if b.num < 0 then ⟨a.num * (-b.den), a.den * (-b.num)⟩
  else ⟨a.num * b.den, a.den * b.num⟩

/-- `|a - b| < 0.005`, decided by cross-multiplication (`0.005 = 1/200`);
valid whenever both denominators are positive. -/
def Frac.closeLt (a b : Frac) : Bool :=
  decide (200 * |a.num * b.den - a.den * b.num| < a.den * b.den)

/-- `10 ^ n` as an integer. -/
def pow10 (n : ℕ) : ℤ := 10 ^ n

/-- Optional sign at the head of the exponent digits. -/
def parseExpSign : List Char → Bool × List Char
  | [] => (true, [])
  | d :: rr =>
    if d == '+' then (true, rr) else if d == '-' then (false, rr) else (true, d :: rr)

/-- Exponent part of the Python `float()` grammar: end of input means exponent
0; otherwise `e`/`E`, an optional sign, and digits reaching the end. -/
def parseExpPart : List Char → Option (Bool × ℕ)
  | [] => some (true, 0)
  | c :: r2 =>
    if c == 'e' || c == 'E' then
      if ((parseExpSign r2).2.takeWhile Char.isDigit).isEmpty then none
      else if !((parseExpSign r2).2.drop
          ((parseExpSign r2).2.takeWhile Char.isDigit).length).isEmpty then none
      else some ((parseExpSign r2).1, digitsVal ((parseExpSign r2).2.takeWhile Char.isDigit))
    else none

/-- Combine the mantissa (`sgn`, integer digits value `ipv`, fraction digits
value `fpv` of length `fl`) with the exponent part parsed from `rest`. -/
def pyFloatExp (sgn : ℤ) (ipv fpv : ℕ) (fl : ℕ) (rest : List Char) : Option Frac :=
  (parseExpPart rest).map fun pe =>
    if pe.1 then ⟨sgn * ((ipv : ℤ) * pow10 fl + (fpv : ℤ)) * pow10 pe.2, pow10 fl⟩
    else ⟨sgn * ((ipv : ℤ) * pow10 fl + (fpv : ℤ)), pow10 fl * pow10 pe.2⟩

/-- Optional leading sign of a `float()` literal. -/
def pyFloatSign : List Char → ℤ × List Char
  | [] => (1, [])
  | c :: rest =>
    if c == '+' then (1, rest) else if c == '-' then (-1, rest) else (1, c :: rest)

/-- Mantissa of the `float()` grammar after the sign: the integer digits `ip`
have been taken, the rest is either empty, a decimal point with fraction
digits, or the exponent; at least one digit is required overall. -/
def pyFloatMant (sgn : ℤ) (ip : List Char) : List Char → Option Frac
  | [] => if ip.isEmpty then none else pyFloatExp sgn (digitsVal ip) 0 0 []
  | c :: rest =>
    if c == '.' then
      if ip.isEmpty && (rest.takeWhile Char.isDigit).isEmpty then none
      else
        pyFloatExp sgn (digitsVal ip) (digitsVal (rest.takeWhile Char.isDigit))
          (rest.takeWhile Char.isDigit).length
          (rest.drop (rest.takeWhile Char.isDigit).length)
    else if ip.isEmpty then none
    else pyFloatExp sgn (digitsVal ip) 0 0 (c :: rest)

/-- Python `float()` on a whitespace-trimmed string: optional sign, then
digits with an optional decimal point (at least one digit overall), then an
optional exponent.  IEEE specials (`inf`, `nan`) and digit-group underscores,
which real `float()` also accepts, have no rational value and are not
modelled: they are treated as parse failures. -/
def pyFloatCore (s : List Char) : Option Frac :=
  pyFloatMant (pyFloatSign s).1 ((pyFloatSign s).2.takeWhile Char.isDigit)
    ((pyFloatSign s).2.drop ((pyFloatSign s).2.takeWhile Char.isDigit).length)

/-- Python `float()` (it ignores surrounding whitespace). -/
def pyFloat (s : List Char) : Option Frac := pyFloatCore (pyStrip s)

/-- The cleaned string built by `normalize_numeric`:
`value.strip().replace(",", "").replace("$", "").replace("%", "")`. -/
def cleanedOf (value : String) : List Char :=
  (pyStrip value.toList).filter fun c => !(c == ',') && !(c == '$') && !(c == '%')

/-- The part of `cleaned` before the single `/` (`num` of `cleaned.split("/")`). -/
def numPartOf (cleaned : List Char) : List Char :=
  cleaned.takeWhile fun c => !(c == '/')

/-- The part of `cleaned` after the single `/` (`den` of `cleaned.split("/")`). -/
def denPartOf (cleaned : List Char) : List Char :=
  (cleaned.dropWhile fun c => !(c == '/')).drop 1

/-- `normalize_numeric` from `src/scoring.py`: strip whitespace and the
characters `,`, `$`, `%`; a string with exactly one `/` is read as a fraction
`num/den` (each side `float()`-parsed after stripping), anything else is
`float()`-parsed directly; `ValueError` and `ZeroDivisionError` give `None`. -/
def normalize_numeric (value : String) : Option Frac :=
  if (cleanedOf value).count '/' = 1 then
    match pyFloat (pyStrip (numPartOf (cleanedOf value))),
        pyFloat (pyStrip (denPartOf (cleanedOf value))) with
    | some n, some d => if d.num = 0 then none else some (Frac.div n d)
    | _, _ => none
  else pyFloat (cleanedOf value)

/-- Character class kept by `re.sub(r"[^\w\s/:]", "", text)`:
word characters, whitespace, `/`, `:` (ASCII range). -/
def keepChar (c : Char) : Bool :=
  c.isAlphanum || c == '_' || isWs c || c == '/' || c == ':'

/-- `re.sub(r"\s+", " ", text)`: replace every maximal whitespace run by one
space (the Boolean argument records whether the previous kept character was
part of a whitespace run). -/
def collapseWsAux : Bool → List Char → List Char
  | _, [] => []
  | prevWs, c :: rest =>
    if isWs c then
      if prevWs then collapseWsAux true rest else ' ' :: collapseWsAux true rest
    else c :: collapseWsAux false rest

/-- `re.sub(r"\s+", " ", text)` on a whole string. -/
def collapseWs (l : List Char) : List Char := collapseWsAux false l

/-- `normalize_text` from `src/scoring.py`: lowercase, strip, delete all
characters outside word/whitespace/`/`/`:`, collapse whitespace runs to a
single space, strip. -/
def normalize_text (value : String) : String :=
  String.mk (pyStrip (collapseWs ((pyStrip (value.toList.map lowerChar)).filter keepChar)))

/-- Result record of `score_answer` (`is_correct`, `is_unknown`, `match_type`). -/
structure ScoreResult where
  is_correct : Bool
  is_unknown : Bool
  match_type : String
deriving DecidableEq

/-- The fixed refusal phrases of `score_answer`:
`("unknown", "i don't know", "cannot determine")`. -/
def refusalsL : List (List Char) :=
  ["unknown".toList,
   "i don".toList ++ [Char.ofNat 39] ++ "t know".toList,
   "cannot determine".toList]

/-- `score_answer` from `src/scoring.py`. -/
def score_answer (parsed_answer : Option String) (ground_truth : String)
    (answer_type : String) : ScoreResult :=
  match parsed_answer with
  | none => ⟨false, false, "parse_failure"⟩
  | some pa =>
    if refusalsL.contains ((pyStrip pa.toList).map lowerChar) then ⟨false, true, "unknown"⟩
    else if answer_type = "numeric" then
      match normalize_numeric pa, normalize_numeric ground_truth with
      | some a, some b => ⟨Frac.closeLt a b, false, "numeric"⟩
      | _, _ => ⟨normalize_text pa == normalize_text ground_truth, false, "text_fallback"⟩
    else ⟨normalize_text pa == normalize_text ground_truth, false, "text"⟩


/-- A dataset question (one JSONL record of the dataset file). -/
structure Question where
  id : String
  category : String
  question : String
  answer : String
  answer_type : String
  difficulty : String
deriving DecidableEq

/-- The resume/deduplication key `(question_id, prompt_name, temperature,
run_index)`.  Temperatures (Python floats from the config) are modelled as
exact rationals, compared by equality only. -/
structure Key where
  question_id : String
  prompt_name : String
  temperature : ℚ
  run_index : ℕ
deriving DecidableEq

/-- One raw Generation Record as appended to the output JSONL by the Runner. -/
structure GenRecord where
  question_id : String
  prompt_name : String
  temperature : ℚ
  run_index : ℕ
  model : String
  prompt_text : String
  raw_output : String
  timestamp : String
deriving DecidableEq

/-- The key of a Generation Record, as read back by `get_completed_keys`. -/
def recKey (r : GenRecord) : Key :=
  ⟨r.question_id, r.prompt_name, r.temperature, r.run_index⟩

/-- `get_completed_keys` from `src/utils.py`: the set of keys of all records
in the output store. -/
def get_completed_keys (store : List GenRecord) : Finset Key :=
  (store.map recKey).toFinset

/-- `build_prompt` from `src/utils.py`: substitute the question into the
template and append the fixed CONFIDENCE/ANSWER format suffix. -/
def build_prompt (template : String) (question : String) : String :=
  template.replace "\x7b\x7bQUESTION\x7d\x7d" question ++
    "\n\nRespond in EXACTLY this format:\nCONFIDENCE: <0-100>\nANSWER: <your answer here>"

/-- One pending work item of the experiment grid. -/
structure WorkItem where
  q : Question
  prompt_name : String
  temperature : ℚ
  run_index : ℕ
deriving DecidableEq

/-- The key of a work item. -/
def workKey (w : WorkItem) : Key := ⟨w.q.id, w.prompt_name, w.temperature, w.run_index⟩

/-- `range(1, num_runs + 1)`. -/
def runIndices (numRuns : ℕ) : List ℕ := (List.range numRuns).map (· + 1)

/-- The work list built by `run_experiments`: the nested loops over questions,
prompt names, temperatures and run indices, keeping the combinations whose key
is not in the resume set. -/
def buildWork (dataset : List Question) (prompts : List String) (temps : List ℚ)
    (numRuns : ℕ) (completed : Finset Key) : List WorkItem :=
  dataset.flatMap fun q =>
    prompts.flatMap fun p =>
      temps.flatMap fun t =>
        (runIndices numRuns).filterMap fun r =>
          if (⟨q.id, p, t, r⟩ : Key) ∈ completed then none else some ⟨q, p, t, r⟩

/-- The keys of the full Cartesian product
questions × prompt names × temperatures × run indices `1..num_runs`,
in the Runner's enumeration order. -/
def cartesianKeys (dataset : List Question) (prompts : List String) (temps : List ℚ)
    (numRuns : ℕ) : List Key :=
  dataset.flatMap fun q =>
    prompts.flatMap fun p =>
      temps.flatMap fun t =>
        (runIndices numRuns).map fun r => ⟨q.id, p, t, r⟩

/-- Is an LLM-call outcome the raised-after-retries error case? -/
def isErrB : Except String String → Bool
  | Except.error _ => true
  | Except.ok _ => false

/-- The message of an error outcome (`str(e)` of the caught exception). -/
def errMsgB : Except String String → String
  | Except.error e => e
  | Except.ok _ => ""

/-- Is an LLM-call outcome a success? -/
def isOkB : Except String String → Bool
  | Except.ok _ => true
  | Except.error _ => false

/-- The Generation Record the Runner appends for one work item: on success the
model text, on a raised error the sentinel `"ERROR: " + str(e)` raw output.
`llm` is the outcome oracle of `client.generate` and `clock` the timestamp
oracle for that item. -/
def mkRecord (modelName : String) (templates : String → String)
    (llm : WorkItem → Except String String) (clock : WorkItem → String)
    (w : WorkItem) : GenRecord :=
  let full_prompt := build_prompt (templates w.prompt_name) w.q.question
  let raw_output :=
    match llm w with
    | Except.ok t => t
    | Except.error e => "ERROR: " ++ e
  ⟨w.q.id, w.prompt_name, w.temperature, w.run_index, modelName, full_prompt,
   raw_output, clock w⟩

/-- The Runner's main loop over the work list: one appended record per item
(error or not) and the error counter. -/
def runLoop (modelName : String) (templates : String → String)
    (llm : WorkItem → Except String String) (clock : WorkItem → String) :
    List WorkItem → List GenRecord × ℕ
  | [] => ([], 0)
  | w :: ws =>
    let r0 := mkRecord modelName templates llm clock w
    let p := runLoop modelName templates llm clock ws
    (r0 :: p.1, (if isErrB (llm w) then 1 else 0) + p.2)

/-- `run_experiments` from `src/run_experiments.py` (state-relevant part):
build the resume set from the existing store, build the work list, return
unchanged with zero calls when nothing remains, otherwise append one record
per work item.  Result: (final store, calls made, errors). -/
def run_experiments (dataset : List Question) (prompts : List String)
    (temps : List ℚ) (numRuns : ℕ) (templates : String → String)
    (modelName : String) (llm : WorkItem → Except String String)
    (clock : WorkItem → String) (store : List GenRecord) :
    List GenRecord × ℕ × ℕ :=
  if (buildWork dataset prompts temps numRuns (get_completed_keys store)).length = 0 then
    (store, 0, 0)
  else
    (store ++ (runLoop modelName templates llm clock
        (buildWork dataset prompts temps numRuns (get_completed_keys store))).1,
      (buildWork dataset prompts temps numRuns (get_completed_keys store)).length,
      (runLoop modelName templates llm clock
        (buildWork dataset prompts temps numRuns (get_completed_keys store))).2)

/-- A parsed record as written by `parse_all_outputs`. -/
structure ParsedRecord where
  question_id : String
  prompt_name : String
  temperature : ℚ
  run_index : ℕ
  model : String
  raw_output : String
  parsed_answer : Option String
  parsed_confidence : Option ℕ
  parse_success : Bool
deriving DecidableEq

/-- The parsed record built from one raw generation record (the loop body of
`parse_all_outputs`): a pure function of the record. -/
def parseRecord (r : GenRecord) : ParsedRecord :=
  ⟨r.question_id, r.prompt_name, r.temperature, r.run_index, r.model,
   r.raw_output, parse_answer r.raw_output, parse_confidence r.raw_output,
   (parse_answer r.raw_output).isSome⟩

/-- The list returned by `parse_all_outputs` from `src/parsing.py`. -/
def parse_all_outputs (records : List GenRecord) : List ParsedRecord :=
  if records.isEmpty then [] else records.map parseRecord

/-- The parsed-store contents after one run of `parse_all_outputs`: with a
non-empty raw store the output file is first truncated and then fully
rewritten; with an empty raw store the function returns before touching the
file, leaving `oldStore` in place. -/
def parseStore (records : List GenRecord) (oldStore : List ParsedRecord) :
    List ParsedRecord :=
  if records.isEmpty then oldStore else records.map parseRecord

/-- The fatal error message of `LLMClient.generate` after exhausting retries:
`f"API call failed after {retry_max} retries: {last_error}"`. -/
def failMsg (retryMax : ℕ) (lastErr : String) : String :=
  "API call failed after " ++ toString retryMax ++ " retries: " ++ lastErr

/-- The retry loop of `LLMClient.generate`: `remaining` attempts left,
`attempt` is the 1-based number of the next attempt, `lastErr` the last
caught error text (`"None"` before any attempt, as in the Python f-string).
`oracle n` is the outcome of the n-th API call.  Returns the final outcome and
the list of backoff sleeps performed (`retry_backoff * 2 ** (attempt - 1)`
after each failed attempt). -/
def generateGo (oracle : ℕ → Except String String) (backoff : ℚ) (retryMax : ℕ) :
    ℕ → ℕ → String → Except String String × List ℚ
  | 0, _, lastErr => (Except.error (failMsg retryMax lastErr), [])
  | remaining + 1, attempt, _ =>
    match oracle attempt with
    | Except.ok t => (Except.ok t, [])
    | Except.error e =>
      let p := generateGo oracle backoff retryMax remaining (attempt + 1) e
      (p.1, backoff * 2 ^ (attempt - 1) :: p.2)

/-- `LLMClient.generate` from `src/llm_client.py`: up to `retryMax` attempts,
exponential backoff between failures, fatal `RuntimeError` after exhaustion. -/
def generate (oracle : ℕ → Except String String) (backoff : ℚ) (retryMax : ℕ) :
    Except String String × List ℚ :=
  generateGo oracle backoff retryMax retryMax 1 "None"

/-- Spec-side notion for C2: the text following the LAST case-insensitive
occurrence of the literal marker `ANSWER:` (`none` when no occurrence). -/
def textAfterLastMarker : List Char → Option (List Char)
  | [] => none
  | l@(_ :: rest) =>
    match textAfterLastMarker rest with
    | some t => some t
    | none => matchPat markerAns l

/-- Spec-side normalization for C3, following the claim wording literally and
in its stated order: trim; lowercase; remove all commas; strip surrounding
quote characters AND whitespace; strip one trailing period; strip a leading
currency symbol; unit reduction.  (No re-trim after the period / currency
steps, and the quote-strip step removes all whitespace, where the code strips
only spaces there and re-trims after the later steps.) -/
def specNormalizeC3 (g : List Char) : List Char :=
  let a1 := pyStrip g
  let a2 := stripChars (quoteSet ++ [Char.ofNat 9, Char.ofNat 10, Char.ofNat 13, Char.ofNat 11, Char.ofNat 12])
    ((a1.map lowerChar).filter fun c => !(c == ','))
  let a3 := if a2.getLast? = some '.' then a2.dropLast else a2
  let a4 := if a3.head? = some '$' then a3.tail else a3
  unitReduce a4

/-- Spec-side answer parser for C3: the extracted group (as the code extracts
it) normalized by the claim's literal normalization chain. -/
def specParseAnswerC3 (raw : String) : Option String :=
  match (findAllAns raw.toList).getLast? with
  | none => none
  | some g =>
    let a := specNormalizeC3 g
    if a.isEmpty then none else some (String.mk a)

/-- The final step of `parse_answer` applied to a captured group: `none` iff
the normalized text is empty. -/
def finishAns (g : List Char) : Option String :=
  if (normalizeAnswer g).isEmpty then none else some (String.mk (normalizeAnswer g))

/-- Spec-side notion for C4: is some case-insensitive occurrence of
`CONFIDENCE:` IMMEDIATELY followed by a digit (no intervening characters)? -/
def hasConfImmediate : List Char → Bool
  | [] => false
  | l@(_ :: rest) =>
    (match matchPat markerConf l with
     | some (d :: _) => d.isDigit
     | _ => false) || hasConfImmediate rest

/-- Sample question (numeric) for concrete instantiations. -/
def q1 : Question := ⟨"q1", "arithmetic", "What is 6 times 7?", "42", "numeric", "easy"⟩

/-- Sample question (text) for concrete instantiations. -/
def q2 : Question := ⟨"q2", "logic", "Is water wet?", "yes", "text", "easy"⟩

/-- A stale parsed record, for exercising the parse stage on an empty raw store. -/
def sampleParsed : ParsedRecord :=
  ⟨"q0", "direct", 0, 1, "m", "stale", none, none, false⟩

/-- A sample raw generation record. -/
def sampleGen : GenRecord :=
  ⟨"q1", "direct", 0, 1, "m", "prompt", "ANSWER: 42", "ts"⟩

/-- Boolean equality test on LLM-call outcomes. -/
def exceptEqB : Except String String → Except String String → Bool
  | Except.ok a, Except.ok b => a == b
  | Except.error a, Except.error b => a == b
  | _, _ => false

instance : DecidableEq (Except String String) := fun a b =>
  decidable_of_iff (exceptEqB a b = true) (by
    cases a <;> cases b <;> simp [exceptEqB])

theorem matchPat_isSome_iff (p : List Char) :
    ∀ s : List Char, (matchPat p s).isSome = true ↔ p <+: s.map lowerChar := by
  induction p with
  | nil => intro s; simp [matchPat]
  | cons c p ih =>
    intro s
    cases s with
    | nil => simp [matchPat]
    | cons d s =>
      by_cases h : lowerChar d = c
      · simp [matchPat, h, ih s, List.cons_prefix_cons]
      · simp only [matchPat, if_neg h, Option.isSome_none, Bool.false_eq_true, false_iff,
          List.map_cons, List.cons_prefix_cons, not_and]
        intro hc
        exact absurd hc.symm h

theorem hasMarkerAns_iff (s : List Char) :
    hasMarkerAns s = true ↔ markerAns <:+: s.map lowerChar := by
  induction s with
  | nil =>
    simp only [hasMarkerAns, List.map_nil, List.infix_nil]
    simp [markerAns]
  | cons c rest ih =>
    simp only [hasMarkerAns, Bool.or_eq_true, List.map_cons, List.infix_cons_iff,
      matchPat_isSome_iff, ih, List.map_cons]

theorem findAllAnsAux_eq_nil (fuel : ℕ) :
    ∀ s : List Char, hasMarkerAns s = false → findAllAnsAux fuel s = [] := by
  induction fuel with
  | zero => intro s _; rfl
  | succ fuel ih =>
    intro s hs
    cases s with
    | nil => rfl
    | cons c rest =>
      simp only [hasMarkerAns, Bool.or_eq_false_iff] at hs
      cases h : matchPat markerAns (c :: rest) with
      | some r => simp [h] at hs
      | none => simp only [findAllAnsAux, h]; exact ih rest hs.2

theorem parse_answer_eq_none_of_no_marker (raw : String)
    (h : ¬ markerAns <:+: raw.toList.map lowerChar) : parse_answer raw = none := by
  have hb : hasMarkerAns raw.toList = false := by
    rw [← Bool.not_eq_true, hasMarkerAns_iff]; exact h
  have hnil : findAllAns raw.toList = [] := findAllAnsAux_eq_nil _ _ hb
  unfold parse_answer
  rw [hnil]
  rfl

theorem parse_answer_scan (raw : String) :
    parse_answer raw = ((findAllAns raw.toList).getLast?).bind finishAns := by
  unfold parse_answer
  cases h : (findAllAns raw.toList).getLast? <;> simp [finishAns, h]

theorem findAllConfAux_eq_nil (fuel : ℕ) :
    ∀ s : List Char, hasConfOcc s = false → findAllConfAux fuel s = [] := by
  induction fuel with
  | zero => intro s _; rfl
  | succ fuel ih =>
    intro s hs
    cases s with
    | nil => rfl
    | cons c rest =>
      simp only [hasConfOcc, Bool.or_eq_false_iff] at hs
      cases h : matchPat markerConf (c :: rest) with
      | none => simp only [findAllConfAux, h]; exact ih rest hs.2
      | some r =>
        have hd : ((r.dropWhile isWs).takeWhile Char.isDigit).isEmpty = true := by
          have := hs.1
          rw [h] at this
          simpa using this
        simp only [findAllConfAux, h, matchTailConf, hd]
        exact ih rest hs.2

theorem parse_confidence_eq_none_of_no_occ (raw : String)
    (h : hasConfOcc raw.toList = false) : parse_confidence raw = none := by
  have hnil : findAllConf raw.toList = [] := findAllConfAux_eq_nil _ _ h
  unfold parse_confidence
  rw [hnil]
  rfl

theorem parse_confidence_le_100 (raw : String) (v : ℕ)
    (h : parse_confidence raw = some v) : v ≤ 100 := by
  unfold parse_confidence at h
  cases hg : (findAllConf raw.toList).getLast? with
  | none => rw [hg] at h; exact absurd h (by simp)
  | some ds =>
    rw [hg] at h
    have : max 0 (min 100 (digitsVal ds)) = v := by injection h
    omega

theorem parse_confidence_scan (raw : String) :
    parse_confidence raw
      = ((findAllConf raw.toList).getLast?).map fun ds => max 0 (min 100 (digitsVal ds)) := by
  unfold parse_confidence
  cases h : (findAllConf raw.toList).getLast? <;> simp [h]

theorem pow10_pos (n : ℕ) : 0 < pow10 n := pow_pos (by norm_num) n

theorem pyFloatExp_den_pos (sgn : ℤ) (ipv fpv fl : ℕ) (rest : List Char) (f : Frac)
    (h : pyFloatExp sgn ipv fpv fl rest = some f) : 0 < f.den := by
  unfold pyFloatExp at h
  cases hp : parseExpPart rest with
  | none => rw [hp] at h; exact absurd h (by simp)
  | some pe =>
    rw [hp] at h
    simp only [Option.map_some'] at h
    injection h with h
    subst h
    by_cases hb : pe.1 = true
    · simp only [if_pos hb]; exact pow10_pos fl
    · simp only [if_neg hb]; exact mul_pos (pow10_pos fl) (pow10_pos _)

theorem pyFloatMant_den_pos (sgn : ℤ) (ip : List Char) (s2 : List Char) (f : Frac)
    (h : pyFloatMant sgn ip s2 = some f) : 0 < f.den := by
  cases s2 with
  | nil =>
    simp only [pyFloatMant] at h
    split_ifs at h
    exact pyFloatExp_den_pos _ _ _ _ _ _ h
  | cons c rest =>
    simp only [pyFloatMant] at h
    split_ifs at h <;>
      exact pyFloatExp_den_pos _ _ _ _ _ _ h

theorem pyFloatCore_den_pos (s : List Char) (f : Frac)
    (h : pyFloatCore s = some f) : 0 < f.den :=
  pyFloatMant_den_pos _ _ _ _ h

theorem pyFloat_den_pos (s : List Char) (f : Frac)
    (h : pyFloat s = some f) : 0 < f.den := pyFloatCore_den_pos _ _ h

theorem Frac.div_den_pos (a b : Frac) (ha : 0 < a.den) (hb : b.num ≠ 0) :
    0 < (Frac.div a b).den := by
  unfold Frac.div
  split
  · next hlt => exact mul_pos ha (by omega)
  · next hge => exact mul_pos ha (by omega)

theorem normalize_numeric_den_pos (value : String) (f : Frac)
    (h : normalize_numeric value = some f) : 0 < f.den := by
  unfold normalize_numeric at h
  split at h
  · cases hn : pyFloat (pyStrip (numPartOf (cleanedOf value))) with
    | none => rw [hn] at h; exact absurd h (by simp)
    | some n =>
      cases hd : pyFloat (pyStrip (denPartOf (cleanedOf value))) with
      | none => rw [hn, hd] at h; exact absurd h (by simp)
      | some d =>
        rw [hn, hd] at h
        dsimp only at h
        split_ifs at h with hz
        injection h with h
        subst h
        exact Frac.div_den_pos n d (pyFloat_den_pos _ _ hn) hz
  · exact pyFloat_den_pos _ _ h

theorem closeLt_iff (a b : Frac) (ha : 0 < a.den) (hb : 0 < b.den) :
    Frac.closeLt a b = true ↔ |a.toRat - b.toRat| < 5/1000 := by
  have ha' : (0:ℚ) < (a.den : ℚ) := by exact_mod_cast ha
  have hb' : (0:ℚ) < (b.den : ℚ) := by exact_mod_cast hb
  rw [Frac.closeLt, decide_eq_true_iff, Frac.toRat, Frac.toRat,
    div_sub_div _ _ ha'.ne' hb'.ne', abs_div, abs_of_pos (mul_pos ha' hb'),
    div_lt_iff₀ (mul_pos ha' hb'),
    show (5/1000:ℚ) * ((a.den:ℚ) * (b.den:ℚ)) = ((a.den:ℚ) * (b.den:ℚ))/200 from by ring,
    lt_div_iff₀ (by norm_num : (0:ℚ) < 200), mul_comm _ (200:ℚ)]
  exact_mod_cast Iff.rfl

theorem recKey_mkRecord (mn : String) (tp : String → String)
    (llm : WorkItem → Except String String) (ck : WorkItem → String) (w : WorkItem) :
    recKey (mkRecord mn tp llm ck w) = workKey w := rfl

theorem runLoop_records (mn : String) (tp : String → String)
    (llm : WorkItem → Except String String) (ck : WorkItem → String)
    (work : List WorkItem) :
    (runLoop mn tp llm ck work).1 = work.map (mkRecord mn tp llm ck) := by
  induction work with
  | nil => rfl
  | cons w ws ih => simp [runLoop, ih]

theorem runLoop_errors (mn : String) (tp : String → String)
    (llm : WorkItem → Except String String) (ck : WorkItem → String)
    (work : List WorkItem) :
    (runLoop mn tp llm ck work).2 = work.countP fun w => isErrB (llm w) := by
  induction work with
  | nil => rfl
  | cons w ws ih =>
    by_cases h : isErrB (llm w) <;>
      simp [runLoop, ih, List.countP_cons, h, Nat.add_comm]

theorem run_experiments_store (ds : List Question) (ps : List String) (ts : List ℚ)
    (n : ℕ) (tp : String → String) (mn : String)
    (llm : WorkItem → Except String String) (ck : WorkItem → String)
    (store : List GenRecord) :
    (run_experiments ds ps ts n tp mn llm ck store).1
      = store ++ (buildWork ds ps ts n (get_completed_keys store)).map (mkRecord mn tp llm ck) := by
  unfold run_experiments
  split
  · next hlen => rw [List.length_eq_zero.mp hlen]; simp
  · simp [runLoop_records]

theorem run_experiments_calls (ds : List Question) (ps : List String) (ts : List ℚ)
    (n : ℕ) (tp : String → String) (mn : String)
    (llm : WorkItem → Except String String) (ck : WorkItem → String)
    (store : List GenRecord) :
    (run_experiments ds ps ts n tp mn llm ck store).2.1
      = (buildWork ds ps ts n (get_completed_keys store)).length := by
  unfold run_experiments
  split
  · next hlen => exact hlen.symm
  · rfl

theorem inner_work_keys (q : Question) (p : String) (t : ℚ) (C : Finset Key) :
    ∀ rs : List ℕ,
      ((rs.filterMap fun r =>
          if (⟨q.id, p, t, r⟩ : Key) ∈ C then none else some (⟨q, p, t, r⟩ : WorkItem)).map
        workKey)
        = (rs.map fun r => (⟨q.id, p, t, r⟩ : Key)).filter fun k => decide (k ∉ C)
  | [] => rfl
  | r :: rs => by
    by_cases h : (⟨q.id, p, t, r⟩ : Key) ∈ C <;>
      simp [List.filterMap_cons, h, inner_work_keys q p t C rs, workKey, List.filter_cons]

theorem buildWork_keys (ds : List Question) (ps : List String) (ts : List ℚ) (n : ℕ)
    (C : Finset Key) :
    (buildWork ds ps ts n C).map workKey
      = (cartesianKeys ds ps ts n).filter fun k => decide (k ∉ C) := by
  unfold buildWork cartesianKeys
  rw [List.map_flatMap, List.filter_flatMap]
  congr 1
  funext q
  rw [List.map_flatMap, List.filter_flatMap]
  congr 1
  funext p
  rw [List.map_flatMap, List.filter_flatMap]
  congr 1
  funext t
  exact inner_work_keys q p t C (runIndices n)

theorem runIndices_nodup (n : ℕ) : (runIndices n).Nodup :=
  (List.nodup_range n).map (add_left_injective 1)

theorem temp_of_mem_inner (q : Question) (p : String) (t : ℚ) (n : ℕ) (k : Key)
    (hk : k ∈ (runIndices n).map fun r => (⟨q.id, p, t, r⟩ : Key)) :
    k.temperature = t := by
  obtain ⟨r, -, rfl⟩ := List.mem_map.mp hk
  rfl

theorem prompt_of_mem_inner (q : Question) (p : String) (ts : List ℚ) (n : ℕ) (k : Key)
    (hk : k ∈ ts.flatMap fun t => (runIndices n).map fun r => (⟨q.id, p, t, r⟩ : Key)) :
    k.prompt_name = p := by
  obtain ⟨t, -, hk⟩ := List.mem_flatMap.mp hk
  obtain ⟨r, -, rfl⟩ := List.mem_map.mp hk
  rfl

theorem qid_of_mem_inner (q : Question) (ps : List String) (ts : List ℚ) (n : ℕ) (k : Key)
    (hk : k ∈ ps.flatMap fun p => ts.flatMap fun t =>
        (runIndices n).map fun r => (⟨q.id, p, t, r⟩ : Key)) :
    k.question_id = q.id := by
  obtain ⟨p, -, hk⟩ := List.mem_flatMap.mp hk
  obtain ⟨t, -, hk⟩ := List.mem_flatMap.mp hk
  obtain ⟨r, -, rfl⟩ := List.mem_map.mp hk
  rfl

theorem cartesianKeys_nodup (ds : List Question) (ps : List String) (ts : List ℚ) (n : ℕ)
    (h1 : (ds.map Question.id).Nodup) (h2 : ps.Nodup) (h3 : ts.Nodup) :
    (cartesianKeys ds ps ts n).Nodup := by
  unfold cartesianKeys
  rw [List.nodup_flatMap]
  constructor
  · intro q _
    rw [List.nodup_flatMap]
    constructor
    · intro p _
      rw [List.nodup_flatMap]
      constructor
      · intro t _
        exact (runIndices_nodup n).map fun r1 r2 hk => congrArg Key.run_index hk
      · refine h3.imp fun hne => ?_
        intro k hk1 hk2
        exact hne ((temp_of_mem_inner _ _ _ _ k hk1).symm.trans
          (temp_of_mem_inner _ _ _ _ k hk2))
    · refine h2.imp fun hne => ?_
      intro k hk1 hk2
      exact hne ((prompt_of_mem_inner _ _ _ _ k hk1).symm.trans
        (prompt_of_mem_inner _ _ _ _ k hk2))
  · have h1p : ds.Pairwise fun a b => a.id ≠ b.id := List.pairwise_map.mp h1
    refine h1p.imp fun hne => ?_
    intro k hk1 hk2
    exact hne ((qid_of_mem_inner _ _ _ _ k hk1).symm.trans
      (qid_of_mem_inner _ _ _ _ k hk2))

theorem generateGo_ok_iff (oracle : ℕ → Except String String) (backoff : ℚ)
    (retryMax : ℕ) :
    ∀ (remaining attempt : ℕ) (lastErr : String),
      isOkB (generateGo oracle backoff retryMax remaining attempt lastErr).1 = true
        ↔ ∃ i ∈ List.range' attempt remaining, isOkB (oracle i) = true := by
  intro remaining
  induction remaining with
  | zero => intro attempt lastErr; simp [generateGo, isOkB]
  | succ r ih =>
    intro attempt lastErr
    cases ho : oracle attempt with
    | ok t =>
      simp only [generateGo, ho, List.range'_succ]
      constructor
      · intro _
        exact ⟨attempt, by simp, by rw [ho]; rfl⟩
      · intro _; rfl
    | error e =>
      simp only [generateGo, ho, List.range'_succ]
      rw [ih (attempt + 1) e]
      constructor
      · rintro ⟨i, hi, hok⟩
        exact ⟨i, List.mem_cons_of_mem _ hi, hok⟩
      · rintro ⟨i, hi, hok⟩
        rcases List.mem_cons.mp hi with rfl | hi
        · rw [ho] at hok; exact absurd hok (by simp [isOkB])
        · exact ⟨i, hi, hok⟩

theorem generateGo_all_fail (oracle : ℕ → Except String String) (backoff : ℚ)
    (retryMax : ℕ) :
    ∀ (remaining attempt : ℕ) (lastErr : String),
      (∀ i ∈ List.range' attempt remaining, isErrB (oracle i) = true) →
      generateGo oracle backoff retryMax remaining attempt lastErr
        = (Except.error (failMsg retryMax
            (if remaining = 0 then lastErr else errMsgB (oracle (attempt + remaining - 1)))),
          (List.range' attempt remaining).map fun i => backoff * 2 ^ (i - 1)) := by
  intro remaining
  induction remaining with
  | zero => intro attempt lastErr _; simp [generateGo]
  | succ r ih =>
    intro attempt lastErr hfail
    have h0 : isErrB (oracle attempt) = true :=
      hfail attempt (by rw [List.range'_succ]; exact List.mem_cons_self _ _)
    cases ho : oracle attempt with
    | ok t => rw [ho] at h0; exact absurd h0 (by simp [isErrB])
    | error e =>
      have ih' := ih (attempt + 1) e fun i hi =>
        hfail i (by rw [List.range'_succ]; exact List.mem_cons_of_mem _ hi)
      simp only [generateGo, ho, ih']
      by_cases hr : r = 0
      · subst hr
        simp [List.range'_succ, ho, errMsgB]
      · have harith : attempt + 1 + r - 1 = attempt + (r + 1) - 1 := by omega
        rw [if_neg hr, harith, if_neg (by omega : ¬ r + 1 = 0)]
        rw [List.range'_succ, List.map_cons]

theorem generateGo_first_ok (oracle : ℕ → Except String String) (backoff : ℚ)
    (retryMax : ℕ) :
    ∀ (k remaining attempt : ℕ) (lastErr : String),
      k < remaining →
      (∀ i ∈ List.range' attempt k, isErrB (oracle i) = true) →
      isOkB (oracle (attempt + k)) = true →
      generateGo oracle backoff retryMax remaining attempt lastErr
        = (oracle (attempt + k),
          (List.range' attempt k).map fun i => backoff * 2 ^ (i - 1)) := by
  intro k
  induction k with
  | zero =>
    intro remaining attempt lastErr hlt _ hok
    obtain ⟨r, rfl⟩ : ∃ r, remaining = r + 1 := ⟨remaining - 1, by omega⟩
    cases ho : oracle attempt with
    | ok t => simp [generateGo, ho]
    | error e => rw [Nat.add_zero, ho] at hok; exact absurd hok (by simp [isOkB])
  | succ j ih =>
    intro remaining attempt lastErr hlt hfail hok
    obtain ⟨r, rfl⟩ : ∃ r, remaining = r + 1 := ⟨remaining - 1, by omega⟩
    have h0 : isErrB (oracle attempt) = true :=
      hfail attempt (by rw [List.range'_succ]; exact List.mem_cons_self _ _)
    cases ho : oracle attempt with
    | ok t => rw [ho] at h0; exact absurd h0 (by simp [isErrB])
    | error e =>
      have ih' := ih r (attempt + 1) e (by omega)
        (fun i hi => hfail i (by rw [List.range'_succ]; exact List.mem_cons_of_mem _ hi))
        (by rw [show attempt + 1 + j = attempt + (j + 1) from by omega]; exact hok)
      simp only [generateGo, ho, ih']
      rw [show attempt + 1 + j = attempt + (j + 1) from by omega,
        List.range'_succ, List.map_cons]

/-- Claim C2, counterexample: the result of `parse_answer` is NOT derived from
the text following the LAST `ANSWER:` occurrence.  The two inputs below have
the same text (empty) after their last marker occurrence yet give different
results, because the regex needs content after the marker and therefore uses
the earlier occurrence; and on one line a later occurrence is swallowed by the
greedy capture of the earlier one, so the last occurrence does not win. -/
theorem C2_counterexample :
    textAfterLastMarker ("ANSWER: 1\nANSWER:".toList)
        = textAfterLastMarker ("ANSWER: 2\nANSWER:".toList)
    ∧ parse_answer "ANSWER: 1\nANSWER:" = some "1"
    ∧ parse_answer "ANSWER: 2\nANSWER:" = some "2"
    ∧ textAfterLastMarker ("ANSWER: 1 ANSWER: 2".toList) = some (" 2".toList)
    ∧ parse_answer "ANSWER: 1 ANSWER: 2" = some "1 answer: 2" := by
  refine ⟨by decide, by decide, by decide, by decide, by decide⟩

/-- Claim C2 (amended): `parse_answer` is absent when the string contains no
case-insensitive occurrence of the literal `ANSWER:`; otherwise its result is
derived from the LAST match of the left-to-right non-overlapping scan for the
marker followed by content (optional whitespace, then at least one non-newline
character, captured to the end of that line) — for markers on separate lines,
each followed by content, the last marker therefore wins, and
`"ANSWER: 1\nANSWER: 2"` yields `"2"`. -/
theorem C2_last_marker_wins (raw : String) :
    (¬ markerAns <:+: raw.toList.map lowerChar → parse_answer raw = none)
    ∧ parse_answer raw = ((findAllAns raw.toList).getLast?).bind finishAns
    ∧ parse_answer "ANSWER: 1\nANSWER: 2" = some "2" :=
  ⟨parse_answer_eq_none_of_no_marker raw, parse_answer_scan raw, by decide⟩

/-- Witness for C2: a marker-free input gives an absent result. -/
theorem C2_last_marker_wins_witness :
    (¬ markerAns <:+: ("the answer is 42".toList.map lowerChar))
    ∧ parse_answer "the answer is 42" = none :=
  ⟨by decide, (C2_last_marker_wins "the answer is 42").1 (by decide)⟩

/-- Claim C3, counterexample: the claim's normalization order (with a
quote-and-whitespace strip and no re-trim after the period/currency steps)
disagrees with the code on these inputs: the code strips only spaces in the
quote-strip step (a tab survives), and it re-trims after removing a trailing
period (a space does not survive). -/
theorem C3_counterexample :
    specParseAnswerC3 "ANSWER: 5\t," = some "5"
    ∧ parse_answer "ANSWER: 5\t," = some "5\t"
    ∧ specParseAnswerC3 "ANSWER: 5 ." = some "5 "
    ∧ parse_answer "ANSWER: 5 ." = some "5"
    ∧ some "5" ≠ some ("5\t" : String)
    ∧ some "5 " ≠ some ("5" : String) := by
  refine ⟨by decide, by decide, by decide, by decide, by decide, by decide⟩

/-- Claim C3 (amended): for a raw string on which the answer regex matches,
`parse_answer` normalizes the captured text by `normalizeAnswer`, i.e. in this
order: trim; lowercase (and trim); remove all commas; strip surrounding quote
characters and SPACES (other whitespace is not stripped at this step); drop
one trailing period and re-trim; drop one leading dollar sign and re-trim;
reduce `<number> <unit>` to the number for the fixed unit vocabulary.  The
result is absent iff the final string is empty; `"ANSWER: 180 miles"` gives
`"180"`, `"ANSWER: $5.50"` gives `"5.50"`, `"ANSWER: 10,000"` gives
`"10000"`. -/
theorem C3_normalization (raw : String) (g : List Char)
    (hg : (findAllAns raw.toList).getLast? = some g) :
    parse_answer raw
        = (if (normalizeAnswer g).isEmpty then none else some (String.mk (normalizeAnswer g)))
    ∧ (parse_answer raw = none ↔ normalizeAnswer g = [])
    ∧ parse_answer "ANSWER: 180 miles" = some "180"
    ∧ parse_answer "ANSWER: $5.50" = some "5.50"
    ∧ parse_answer "ANSWER: 10,000" = some "10000" := by
  have h1 : parse_answer raw
      = (if (normalizeAnswer g).isEmpty then none
         else some (String.mk (normalizeAnswer g))) := by
    unfold parse_answer
    rw [hg]
  refine ⟨h1, ?_, by decide, by decide, by decide⟩
  rw [h1]
  by_cases he : (normalizeAnswer g).isEmpty
  · simp [he, List.isEmpty_iff.mp he]
  · simp only [if_neg he]
    simp [List.isEmpty_iff] at he
    simp [he]

/-- Witness for C3 at the unit-stripping example. -/
theorem C3_normalization_witness :
    (findAllAns ("ANSWER: 180 miles".toList)).getLast? = some ("180 miles".toList)
    ∧ parse_answer "ANSWER: 180 miles" = some "180" :=
  ⟨by decide, (C3_normalization "ANSWER: 180 miles" ("180 miles".toList) (by decide)).2.2.1⟩

/-- Claim C4, counterexample: `"CONFIDENCE: 85"` contains no occurrence of
`CONFIDENCE:` IMMEDIATELY followed by a digit (a space intervenes), yet
`parse_confidence` returns 85, because the regex allows optional whitespace
(`\s*`) between the marker and the digits. -/
theorem C4_counterexample :
    hasConfImmediate ("CONFIDENCE: 85".toList) = false
    ∧ parse_confidence "CONFIDENCE: 85" = some 85 := by
  refine ⟨by decide, by decide⟩

/-- Claim C4 (amended): `parse_confidence` is absent exactly when no
case-insensitive occurrence of `CONFIDENCE:` is followed — after optional
whitespace — by one or more digits; otherwise it takes the digits of the last
such occurrence, reads them as an integer and clamps to [0, 100] (so a present
result is always at most 100, and a repeated marker resolves to the last
occurrence). -/
theorem C4_confidence_clamped (raw : String) :
    (hasConfOcc raw.toList = false → parse_confidence raw = none)
    ∧ parse_confidence raw
        = (((findAllConf raw.toList).getLast?).map fun ds => max 0 (min 100 (digitsVal ds)))
    ∧ (∀ v, parse_confidence raw = some v → v ≤ 100)
    ∧ parse_confidence "CONFIDENCE: 31\nCONFIDENCE: 250" = some 100
    ∧ parse_confidence "CONFIDENCE: 31\nCONFIDENCE: 70" = some 70 :=
  ⟨parse_confidence_eq_none_of_no_occ raw, parse_confidence_scan raw,
    parse_confidence_le_100 raw, by decide, by decide⟩

/-- Witness for C4: an input with no qualifying occurrence gives `none`. -/
theorem C4_confidence_clamped_witness :
    hasConfOcc ("CONFIDENCE: high".toList) = false
    ∧ parse_confidence "CONFIDENCE: high" = none :=
  ⟨by decide, (C4_confidence_clamped "CONFIDENCE: high").1 (by decide)⟩

/-- Claim C5: a non-absent parsed answer whose stripped, lowercased form is
one of the refusal phrases scores as `is_correct = false`,
`is_unknown = true`, `match_type = "unknown"`, regardless of answer type and
ground truth; conversely `is_unknown` is true only for such answers, and
whenever `is_unknown` is true, `is_correct` is false. -/
theorem C5_unknown_refusals (pa gt ty : String) (p : Option String) :
    (((pyStrip pa.toList).map lowerChar) ∈ refusalsL →
      score_answer (some pa) gt ty = ⟨false, true, "unknown"⟩)
    ∧ ((score_answer p gt ty).is_unknown = true →
        (∃ s, p = some s ∧ ((pyStrip s.toList).map lowerChar) ∈ refusalsL)
        ∧ (score_answer p gt ty).is_correct = false) := by
  constructor
  · intro h
    have hc : refusalsL.contains ((pyStrip pa.toList).map lowerChar) = true := by
      simpa using h
    dsimp only [score_answer]
    rw [hc]
    simp
  · intro hu
    cases p with
    | none => simp [score_answer] at hu
    | some s =>
      by_cases hc : refusalsL.contains ((pyStrip s.toList).map lowerChar) = true
      · refine ⟨⟨s, rfl, by simpa using hc⟩, ?_⟩
        dsimp only [score_answer]
        rw [hc]
        simp
      · exfalso
        rw [Bool.not_eq_true] at hc
        dsimp only [score_answer] at hu
        rw [hc] at hu
        simp only [Bool.false_eq_true, if_false] at hu
        split at hu
        · split at hu <;> simp at hu
        · simp at hu

/-- Witness for C5 at a concrete refusal answer. -/
theorem C5_unknown_refusals_witness :
    (((pyStrip "unknown".toList).map lowerChar) ∈ refusalsL)
    ∧ score_answer (some "unknown") "42" "numeric" = ⟨false, true, "unknown"⟩ :=
  ⟨by decide, (C5_unknown_refusals "unknown" "42" "numeric" none).1 (by decide)⟩

/-- Claim C6: for a non-refusal parsed answer on a numeric-type question, when
both the parsed answer and the ground truth parse as numbers, correctness is
exactly absolute difference < 0.005 with match type `numeric`; when either
fails to parse, correctness is normalized text equality with match type
`text_fallback`; `score("42.0","42","numeric")` is correct and
`score("41.99","42","numeric")` is not. -/
theorem C6_numeric_tolerance (pa gt : String)
    (href : ((pyStrip pa.toList).map lowerChar) ∉ refusalsL) :
    (∀ a b : Frac, normalize_numeric pa = some a → normalize_numeric gt = some b →
      score_answer (some pa) gt "numeric" = ⟨Frac.closeLt a b, false, "numeric"⟩
      ∧ ((score_answer (some pa) gt "numeric").is_correct = true
          ↔ |a.toRat - b.toRat| < 5 / 1000))
    ∧ ((normalize_numeric pa = none ∨ normalize_numeric gt = none) →
      score_answer (some pa) gt "numeric"
        = ⟨normalize_text pa == normalize_text gt, false, "text_fallback"⟩)
    ∧ (score_answer (some "42.0") "42" "numeric").is_correct = true
    ∧ (score_answer (some "41.99") "42" "numeric").is_correct = false := by
  have hc : refusalsL.contains ((pyStrip pa.toList).map lowerChar) = false := by
    rw [← Bool.not_eq_true]
    simpa using href
  refine ⟨?_, ?_, by decide, by decide⟩
  · intro a b ha hb
    have hres : score_answer (some pa) gt "numeric" = ⟨Frac.closeLt a b, false, "numeric"⟩ := by
      dsimp only [score_answer]
      rw [hc]
      simp [ha, hb]
    refine ⟨hres, ?_⟩
    rw [hres]
    exact closeLt_iff a b (normalize_numeric_den_pos pa a ha)
      (normalize_numeric_den_pos gt b hb)
  · intro hor
    dsimp only [score_answer]
    rw [hc]
    rcases hor with h | h
    · simp [h]
    · cases hpa : normalize_numeric pa <;> simp [h, hpa]

/-- Witness for C6 at the tolerance example. -/
theorem C6_numeric_tolerance_witness :
    (((pyStrip "42.0".toList).map lowerChar) ∉ refusalsL)
    ∧ (score_answer (some "42.0") "42" "numeric").is_correct = true :=
  ⟨by decide, (C6_numeric_tolerance "42.0" "42" (by decide)).2.2.1⟩

/-- Claim C7, counterexample: with an empty raw store, `parse_all_outputs`
returns before truncating the output file, so a stale parsed store is NOT
cleared and rebuilt on that invocation. -/
theorem C7_counterexample :
    parseStore [] [sampleParsed] = [sampleParsed]
    ∧ ([sampleParsed] : List ParsedRecord) ≠ [] :=
  ⟨rfl, by decide⟩

/-- Claim C7 (amended): the parse stage is idempotent — running it twice on
the same raw store leaves the parsed store exactly as after one run; on a
NON-empty raw store the parsed store is cleared and fully rebuilt as the map
of a pure per-record function; on an empty raw store the stage returns without
touching the parsed store. -/
theorem C7_parse_idempotent (records : List GenRecord) (old : List ParsedRecord) :
    parseStore records (parseStore records old) = parseStore records old
    ∧ (records ≠ [] → parseStore records old = records.map parseRecord)
    ∧ parse_all_outputs records = records.map parseRecord
    ∧ (records = [] → parseStore records old = old) := by
  by_cases h : records.isEmpty
  · have h' : records = [] := List.isEmpty_iff.mp h
    subst h'
    exact ⟨rfl, fun hne => absurd rfl hne, rfl, fun _ => rfl⟩
  · refine ⟨?_, fun _ => ?_, ?_, fun he => absurd (List.isEmpty_iff.mpr he) h⟩ <;>
      simp [parseStore, parse_all_outputs, h]

/-- Witness for C7 on a one-record raw store. -/
theorem C7_parse_idempotent_witness :
    (sampleGen :: [] ≠ ([] : List GenRecord))
    ∧ parseStore [sampleGen] [sampleParsed] = [sampleGen].map parseRecord :=
  ⟨by decide, (C7_parse_idempotent [sampleGen] [sampleParsed]).2.1 (by decide)⟩

/-- Claim C8: the Runner's main loop appends exactly one Generation Record per
attempted work item, in order; an item whose call raises gets the sentinel raw
output `"ERROR: " ++ str(e)` and adds one to the error counter, and processing
always continues — the record list never depends on whether earlier items
failed. -/
theorem C8_error_sentinel_continues (mn : String) (tp : String → String)
    (llm : WorkItem → Except String String) (ck : WorkItem → String)
    (work : List WorkItem) :
    (runLoop mn tp llm ck work).1 = work.map (mkRecord mn tp llm ck)
    ∧ (runLoop mn tp llm ck work).1.length = work.length
    ∧ (runLoop mn tp llm ck work).2 = work.countP (fun w => isErrB (llm w))
    ∧ (∀ w, isErrB (llm w) = true →
        (mkRecord mn tp llm ck w).raw_output = "ERROR: " ++ errMsgB (llm w))
    ∧ (∀ w, recKey (mkRecord mn tp llm ck w) = workKey w) := by
  refine ⟨runLoop_records mn tp llm ck work, ?_, runLoop_errors mn tp llm ck work,
    ?_, fun w => rfl⟩
  · rw [runLoop_records]
    exact List.length_map _ _
  · intro w hw
    cases hl : llm w with
    | ok t => rw [hl] at hw; exact absurd hw (by simp [isErrB])
    | error e => simp [mkRecord, hl, errMsgB]

/-- Witness for C8: one failing item inside a two-item grid is recorded with
the error sentinel while the loop still processes both items. -/
theorem C8_error_sentinel_continues_witness :
    isErrB (Except.error "boom" : Except String String) = true
    ∧ (mkRecord "m" (fun _ => "T")
        (fun w => if w.run_index = 1 then Except.error "boom" else Except.ok "fine")
        (fun _ => "ts") (⟨q1, "direct", 0, 1⟩ : WorkItem)).raw_output
      = "ERROR: " ++ errMsgB ((fun w : WorkItem =>
          if w.run_index = 1 then Except.error "boom" else Except.ok "fine")
            (⟨q1, "direct", 0, 1⟩ : WorkItem)) :=
  ⟨by decide,
    (C8_error_sentinel_continues "m" (fun _ => "T")
      (fun w => if w.run_index = 1 then Except.error "boom" else Except.ok "fine")
      (fun _ => "ts") [⟨q1, "direct", 0, 1⟩]).2.2.2.1
      (⟨q1, "direct", 0, 1⟩ : WorkItem) (by decide)⟩

/-- Claim C9: `generate` returns normally iff some attempt in `1..retryMax`
succeeds; when every attempt fails it raises one error built from the attempt
count and the last underlying error, having waited `backoff * 2^(i-1)` after
the i-th failed attempt; when the first success is attempt `k+1`, it returns
that attempt's text after the backoffs of the `k` failed attempts; with
`retryMax = 0` no attempt is made and the error reports 0 retries and no
underlying error (`"None"`). -/
theorem C9_retry_contract (oracle : ℕ → Except String String) (backoff : ℚ)
    (retryMax : ℕ) :
    (isOkB (generate oracle backoff retryMax).1 = true
      ↔ ∃ i ∈ List.range' 1 retryMax, isOkB (oracle i) = true)
    ∧ ((∀ i ∈ List.range' 1 retryMax, isErrB (oracle i) = true) → 1 ≤ retryMax →
        (generate oracle backoff retryMax).1
          = Except.error (failMsg retryMax (errMsgB (oracle retryMax)))
        ∧ (generate oracle backoff retryMax).2
          = (List.range' 1 retryMax).map fun i => backoff * 2 ^ (i - 1))
    ∧ (∀ k, k + 1 ≤ retryMax → (∀ i ∈ List.range' 1 k, isErrB (oracle i) = true) →
        isOkB (oracle (k + 1)) = true →
        generate oracle backoff retryMax
          = (oracle (k + 1), (List.range' 1 k).map fun i => backoff * 2 ^ (i - 1)))
    ∧ (retryMax = 0 →
        generate oracle backoff retryMax = (Except.error (failMsg 0 "None"), [])) := by
  refine ⟨generateGo_ok_iff oracle backoff retryMax retryMax 1 "None", ?_, ?_, ?_⟩
  · intro hfail hpos
    have h := generateGo_all_fail oracle backoff retryMax retryMax 1 "None" hfail
    rw [if_neg (by omega : ¬ retryMax = 0),
      (by omega : 1 + retryMax - 1 = retryMax)] at h
    unfold generate
    rw [h]
    exact ⟨rfl, rfl⟩
  · intro k hk hfail hok
    have h := generateGo_first_ok oracle backoff retryMax k retryMax 1 "None"
      (by omega) hfail (by rw [(by omega : 1 + k = k + 1)]; exact hok)
    rw [(by omega : 1 + k = k + 1)] at h
    unfold generate
    exact h
  · intro h0
    subst h0
    rfl

/-- Witness for C9: three failing attempts exhaust the retries and surface the
last error. -/
theorem C9_retry_contract_witness :
    (∀ i ∈ List.range' 1 3,
      isErrB ((fun _ => Except.error "boom" : ℕ → Except String String) i) = true)
    ∧ (generate (fun _ => Except.error "boom") 5 3).1
      = Except.error (failMsg 3 (errMsgB
          ((fun _ => Except.error "boom" : ℕ → Except String String) 3))) :=
  ⟨by decide, ((C9_retry_contract (fun _ => Except.error "boom") 5 3).2.1
    (by decide) (by decide)).1⟩

/-- Claim C10: `normalize_numeric` is total in this embedding (it returns an
optional value on every string); a single `a/b` fraction whose denominator
parses to zero yields `None` — the `ZeroDivisionError` branch is caught — and
consequently `score_answer` on the numeric type with parsed answer `"1/0"`
falls back to normalized text comparison with match type `text_fallback` for
every ground truth. -/
theorem C10_division_by_zero_safe (value : String)
    (hcount : (cleanedOf value).count '/' = 1) (d : Frac)
    (hd : pyFloat (pyStrip (denPartOf (cleanedOf value))) = some d) (hz : d.num = 0) :
    normalize_numeric value = none
    ∧ normalize_numeric "1/0" = none
    ∧ (∀ gt : String, score_answer (some "1/0") gt "numeric"
        = ⟨normalize_text "1/0" == normalize_text gt, false, "text_fallback"⟩) := by
  refine ⟨?_, by decide, ?_⟩
  · unfold normalize_numeric
    rw [if_pos hcount]
    cases hn : pyFloat (pyStrip (numPartOf (cleanedOf value))) with
    | none => rw [hd]
    | some n =>
      rw [hd]
      dsimp only
      rw [if_pos hz]
  · intro gt
    have hcf : refusalsL.contains ((pyStrip "1/0".toList).map lowerChar) = false := by
      decide
    have h10 : normalize_numeric "1/0" = none := by decide
    dsimp only [score_answer]
    rw [hcf]
    cases hg : normalize_numeric gt <;> simp [h10, hg]

/-- Witness for C10 at a fraction with a zero denominator written as `0.0`. -/
theorem C10_division_by_zero_safe_witness :
    (cleanedOf "3/0.0").count '/' = 1
    ∧ pyFloat (pyStrip (denPartOf (cleanedOf "3/0.0"))) = some ⟨0, 10⟩
    ∧ (⟨0, 10⟩ : Frac).num = 0
    ∧ normalize_numeric "3/0.0" = none :=
  ⟨by decide, by decide, by decide,
    (C10_division_by_zero_safe "3/0.0" (by decide) ⟨0, 10⟩ (by decide) (by decide)).1⟩

/-- Claim C1, counterexample: the final-store key set does not equal the
Cartesian product "with each key appearing exactly once" for EVERY temperature
list — a duplicated temperature makes the same key two distinct work items
(the resume set is only consulted at startup, never during the run), so a
completed run started from an empty store records that key twice. -/
theorem C1_counterexample :
    ¬ (((run_experiments [q1] ["direct"] [(0 : ℚ), 0] 1 (fun _ => "T") "m"
        (fun _ => Except.ok "ok") (fun _ => "ts") []).1.map recKey).Nodup) := by
  decide

/-- Claim C1 (amended): provided question ids, prompt names and temperatures
are pairwise distinct and the existing store's keys are a duplicate-free
subset of the grid (both hold for every store produced by — possibly
interrupted — runs of the same experiment), the Runner is resume-correct: the
resume index equals exactly the key set of the output store; the work list is
exactly the Cartesian product minus the indexed keys, so re-running produces
work only for missing keys; after a completed run the key multiset of the
store is a permutation of the full Cartesian product (each key exactly once);
and re-running against a complete store makes zero calls. -/
theorem C1_resume_correctness (ds : List Question) (ps : List String) (ts : List ℚ)
    (n : ℕ) (tp : String → String) (mn : String)
    (llm : WorkItem → Except String String) (ck : WorkItem → String)
    (store : List GenRecord)
    (h1 : (ds.map Question.id).Nodup) (h2 : ps.Nodup) (h3 : ts.Nodup)
    (h4 : (store.map recKey).Nodup)
    (h5 : ∀ k ∈ store.map recKey, k ∈ cartesianKeys ds ps ts n) :
    (∀ k : Key, k ∈ get_completed_keys store ↔ k ∈ store.map recKey)
    ∧ (buildWork ds ps ts n (get_completed_keys store)).map workKey
        = (cartesianKeys ds ps ts n).filter
            (fun k => decide (k ∉ get_completed_keys store))
    ∧ (∀ k ∈ (buildWork ds ps ts n (get_completed_keys store)).map workKey,
        k ∉ get_completed_keys store)
    ∧ ((run_experiments ds ps ts n tp mn llm ck store).1.map recKey).Perm
        (cartesianKeys ds ps ts n)
    ∧ ((∀ k ∈ cartesianKeys ds ps ts n, k ∈ get_completed_keys store) →
        (run_experiments ds ps ts n tp mn llm ck store).2.1 = 0) := by
  have hmem : ∀ k : Key, k ∈ get_completed_keys store ↔ k ∈ store.map recKey :=
    fun k => List.mem_toFinset
  have hwork := buildWork_keys ds ps ts n (get_completed_keys store)
  refine ⟨hmem, hwork, ?_, ?_, ?_⟩
  · intro k hk
    rw [hwork] at hk
    exact of_decide_eq_true (List.mem_filter.mp hk).2
  · have hprod : (cartesianKeys ds ps ts n).Nodup := cartesianKeys_nodup ds ps ts n h1 h2 h3
    have hkeys : (run_experiments ds ps ts n tp mn llm ck store).1.map recKey
        = store.map recKey
          ++ (cartesianKeys ds ps ts n).filter
              (fun k => decide (k ∉ get_completed_keys store)) := by
      have hcomp : (buildWork ds ps ts n (get_completed_keys store)).map
            (recKey ∘ mkRecord mn tp llm ck)
          = (buildWork ds ps ts n (get_completed_keys store)).map workKey := rfl
      rw [run_experiments_store, List.map_append, List.map_map, hcomp, hwork]
    rw [hkeys]
    have hperm1 : (store.map recKey).Perm
        ((cartesianKeys ds ps ts n).filter
          fun k => decide (k ∈ get_completed_keys store)) := by
      refine (List.perm_ext_iff_of_nodup h4 (hprod.filter _)).mpr fun k => ?_
      rw [List.mem_filter]
      constructor
      · intro hk
        exact ⟨h5 k hk, decide_eq_true ((hmem k).mpr hk)⟩
      · intro hk
        exact (hmem k).mp (of_decide_eq_true hk.2)
    refine (hperm1.append_right _).trans ?_
    have hfp := List.filter_append_perm
      (fun k => decide (k ∈ get_completed_keys store)) (cartesianKeys ds ps ts n)
    simpa [decide_not] using hfp
  · intro hall
    have hknil : (buildWork ds ps ts n (get_completed_keys store)).map workKey = [] := by
      rw [hwork]
      exact List.filter_eq_nil_iff.mpr fun k hk => by simpa using hall k hk
    have hnil : buildWork ds ps ts n (get_completed_keys store) = [] :=
      List.map_eq_nil_iff.mp hknil
    rw [run_experiments_calls, hnil]
    rfl

/-- Witness for C1 on a two-question grid with an empty store. -/
theorem C1_resume_correctness_witness :
    (([q1, q2].map Question.id).Nodup ∧ (["direct"] : List String).Nodup
      ∧ ([(0 : ℚ)] : List ℚ).Nodup ∧ (([] : List GenRecord).map recKey).Nodup
      ∧ ∀ k ∈ ([] : List GenRecord).map recKey, k ∈ cartesianKeys [q1, q2] ["direct"] [0] 1)
    ∧ ((run_experiments [q1, q2] ["direct"] [(0 : ℚ)] 1 (fun _ => "T") "m"
        (fun _ => Except.ok "ANSWER: 42") (fun _ => "ts") []).1.map recKey).Perm
        (cartesianKeys [q1, q2] ["direct"] [0] 1) :=
  ⟨⟨by decide, by decide, by decide, by decide, by decide⟩,
    (C1_resume_correctness [q1, q2] ["direct"] [0] 1 (fun _ => "T") "m"
      (fun _ => Except.ok "ANSWER: 42") (fun _ => "ts") []
      (by decide) (by decide) (by decide) (by decide) (by decide)).2.2.2.1⟩

